import Mathlib

/-!
Verification development for the gene-list matching and annotation program
(`gene_lists.py`, `gene_compare.py`).

The program works over pandas DataFrames whose cells, once passed through
`astype(str)`, are strings; a missing cell (NaN) stringifies to `"nan"`.
We model a cell as `Option String` (`none` = missing) and `pyStr` as the
`str()` conversion, a DataFrame as an ordered list of named columns, and
the reference tables (rows with `Gene`, `Disease`, `Inheritance` fields)
as lists of records.
-/

namespace GeneLists

/-- Python `str()` on a cell: a missing value (NaN) stringifies to `"nan"`. -/
def pyStr : Option String → String
  | none => "nan"
  | some s => s

/-- Python `str.strip()`: drop leading and trailing whitespace. -/
def pyTrim (s : String) : String :=
  String.mk (((s.data.dropWhile Char.isWhitespace).reverse.dropWhile Char.isWhitespace).reverse)

/-- Python `str.upper()` (ASCII letters, as used by the gene symbols here). -/
def pyUpper (s : String) : String := String.mk (s.data.map Char.toUpper)

/-- Python `str.lower()` (ASCII letters, as used by the gene symbols here). -/
def pyLower (s : String) : String := String.mk (s.data.map Char.toLower)

/-- Lexicographic (code-point) strict comparison of character lists, the
order Python `sorted` uses on strings. -/
def strLtB : List Char → List Char → Bool
  | [], [] => false
  | [], _ :: _ => true
  | _ :: _, [] => false
  | a :: as, b :: bs =>
    if a.toNat < b.toNat then true
    else if b.toNat < a.toNat then false
    else strLtB as bs

/-- Python string `<=`, as a decidable proposition usable by the sorter. -/
def pyLe (a b : String) : Prop := strLtB b.data a.data = false

instance pyLe.decRel : DecidableRel pyLe := fun _ _ => instDecidableEqBool _ _

/-- One row of a reference table (`SAIDs_2025.csv` / `Immune_genes_2025.csv`):
a raw gene symbol (possibly missing), a disease label and an inheritance label. -/
structure RefRecord where
  gene : Option String
  disease : String
  inheritance : String
deriving DecidableEq, Repr

/-- A tabular dataset: ordered, named columns of cells. -/
structure DataFrame where
  cols : List (String × List (Option String))
deriving DecidableEq, Repr

/-- Column names of a DataFrame, in order (`df.columns`). -/
def colNames (df : DataFrame) : List String := df.cols.map Prod.fst

/-- Source `normalize_key` (gene_lists.py line 53): `str(x).strip().upper()`,
applied here to an already stringified value. -/
def normalize_key (x : String) : String := pyUpper (pyTrim x)

/-! Set Matcher: `find_matching_genes` (gene_compare.py lines 3-9 and
gene_lists.py lines 10-14, identical bodies). -/

/-- Python `str.split()` with no argument: split into maximal runs of
non-whitespace characters, discarding empty tokens. Accumulator holds the
current (reversed) run. -/
def splitWsAux : List Char → List Char → List String
  | [], [] => []
  | [], acc => [String.mk acc.reverse]
  | c :: cs, acc =>
    if c.isWhitespace then
      if acc.isEmpty then splitWsAux cs []
      else String.mk acc.reverse :: splitWsAux cs []
    else splitWsAux cs (c :: acc)

/-- Python `s.split()` on a string. -/
def pySplit (s : String) : List String := splitWsAux s.data []

/-- Source `find_matching_genes`: split both texts on whitespace, lowercase
every token, intersect the two resulting sets. The Python sets are modelled
as deduplicated lists; the result's membership is what matters. -/
def find_matching_genes (list1 list2 : String) : List String :=
  let set1 := ((pySplit list1).map pyLower).dedup
  let set2 := ((pySplit list2).map pyLower).dedup
  set1.filter (fun g => set2.contains g)

/-! Column Detector: `guess_gene_column` (gene_lists.py lines 16-51). -/

/-- The regex `^[A-Za-z0-9_.-]+$` combined with `contains("[A-Za-z]")`
(gene_lists.py lines 31 and 39): only letters, digits, `_`, `.`, `-`,
nonempty, and at least one letter. -/
def symbolShape (s : String) : Bool :=
  !s.isEmpty
    && s.data.all (fun c => c.isAlpha || c.isDigit || c == '_' || c == '.' || c == '-')
    && s.data.any (fun c => c.isAlpha)

/-- The stringified, stripped series of a column
(`df[col].astype(str).str.strip()`, line 34). -/
def colSeries (cells : List (Option String)) : List String :=
  cells.map (fun c => pyTrim (pyStr c))

/-- The set `vals` of line 44: uppercased shape-passing values, excluding
empty strings and values whose uppercase form is `"NAN"`. -/
def candidateVals (cells : List (Option String)) : List String :=
  let masked := (colSeries cells).filter symbolShape
  ((masked.filter (fun v => (v != "") && (pyUpper v != "NAN"))).map pyUpper).dedup

/-- The per-column outcome of the loop body (lines 33-45): `none` when the
column is skipped (`continue`, lines 35-36 and 40-41), otherwise
`some overlap` where `overlap = len(vals & ref_genes)` (line 45). -/
def columnScore (refGenes : List String) (cells : List (Option String)) : Option Nat :=
  let series := colSeries cells
  if series.isEmpty then none
  else
    let masked := series.filter symbolShape
    if masked.isEmpty then none
    else some ((candidateVals cells).filter (fun v => refGenes.contains v)).length

/-- The unified reference vocabulary `ref_genes` (lines 23-25): union of the
reference sets, uppercased. -/
def refUnion (referenceSets : List (List String)) : List String :=
  referenceSets.flatten.map pyUpper

/-- The `best_col` / `best_score` loop of lines 27-49: a later column
replaces the current best only when its overlap is strictly greater
(`overlap > best_score`, line 47). -/
def guessAux (refGenes : List String) :
    List (String × List (Option String)) → Option String × Int → Option String × Int
  | [], acc => acc
  | (name, cells) :: rest, (bestCol, bestScore) =>
    match columnScore refGenes cells with
    | none => guessAux refGenes rest (bestCol, bestScore)
    | some ov =>
      if bestScore < (ov : Int) then guessAux refGenes rest (some name, (ov : Int))
      else guessAux refGenes rest (bestCol, bestScore)

/-- Source `guess_gene_column` (lines 16-51): scan the columns in order,
starting from `best_col = None`, `best_score = -1`. -/
def guess_gene_column (df : DataFrame) (referenceSets : List (List String)) : Option String :=
  (guessAux (refUnion referenceSets) df.cols (none, -1)).1

/-- The first column (in column order) whose overlap score is `some m`,
used to state which column the detector picks. -/
def firstColWithScore (refGenes : List String) (m : Nat) :
    List (String × List (Option String)) → Option String
  | [] => none
  | (name, cells) :: rest =>
    if columnScore refGenes cells = some m then some name
    else firstColWithScore refGenes m rest

/-- The first column (in column order) that is not skipped, i.e. that has a
value passing the symbol-shape filter. -/
def firstShapeCol (refGenes : List String) :
    List (String × List (Option String)) → Option String
  | [] => none
  | (name, cells) :: rest =>
    if (columnScore refGenes cells).isSome then some name
    else firstShapeCol refGenes rest

/-! Reference Index Builder (gene_lists.py lines 161-214): Gene_upper column,
groupby, and the aggregation `'; '.join(sorted(set(map(str, x))))`. -/

/-- The `Gene_upper` value of a record (lines 163-168):
`astype(str).str.strip().str.upper()` on the `Gene` field. -/
def geneKeyOf (r : RefRecord) : String := normalize_key (pyStr r.gene)

/-- The group of raw attribute values sharing a normalized gene key
(`groupby('Gene_upper')[field]`). -/
def groupValues (records : List RefRecord) (attr : RefRecord → String) (key : String) :
    List String :=
  (records.filter (fun r => geneKeyOf r == key)).map attr

/-- The aggregation of lines 174, 182, 202, 210:
`'; '.join(sorted(set(map(str, x))))`. -/
def aggJoin (vs : List String) : String :=
  String.intercalate "; " (vs.dedup.insertionSort pyLe)

/-- The dictionary produced by `groupby(...)[field].apply(...).to_dict()`:
a key maps to the aggregated string exactly when some record has that key. -/
def indexLookup (records : List RefRecord) (attr : RefRecord → String) (key : String) :
    Option String :=
  let vs := groupValues records attr key
  if vs.isEmpty then none else some (aggJoin vs)

/-- The key set of the built dictionary (the distinct `Gene_upper` values,
in order of first appearance, as pandas `groupby(sort=True)` only changes
order, not membership). -/
def indexKeys (records : List RefRecord) : List String :=
  (records.map geneKeyOf).dedup

/-! DataFrame column access and assignment, as used by the annotation code. -/

/-- Reading a column: `df[name]` (first column of that name). -/
def getCol (df : DataFrame) (name : String) : Option (List (Option String)) :=
  (df.cols.find? (fun p => p.1 == name)).map Prod.snd

/-- Writing a column: `df[name] = cells` replaces an existing column in
place and otherwise appends a new column at the end. -/
def setCol (df : DataFrame) (name : String) (cells : List (Option String)) : DataFrame :=
  if df.cols.any (fun p => p.1 == name) then
    ⟨df.cols.map (fun p => if p.1 == name then (name, cells) else p)⟩
  else ⟨df.cols ++ [(name, cells)]⟩

/-- One statement `df[name] = df[g].apply(f)`: read the current gene column,
apply `f` to every (stringified) cell, assign the result to `name`. -/
def assignApplied (df : DataFrame) (g name : String) (f : String → String) : DataFrame :=
  setCol df name (((getCol df g).getD []).map (fun c => some (f (pyStr c))))

/-- Source `said_gene_symbol` (lines 263-265): the normalized key when it is
in the disease dictionary, else the empty string. `immune_gene_symbol`
(lines 267-269) is the same with the other reference list. -/
def said_gene_symbol (records : List RefRecord) (x : String) : String :=
  let key := normalize_key x
  if (indexLookup records RefRecord.disease key).isSome then key else ""

/-- The six appended column names, in assignment order (lines 271-285). -/
def annotNames : List String :=
  ["SAID gene", "SAID disease", "SAID disease inheritance",
   "Immune gene", "Immune disease", "Immune disease inheritance"]

/-- The whole processing step of lines 259-285: strip the gene column in
place (`large_df[gene_column] = large_df[gene_column].astype(str).str.strip()`),
then assign the six columns, each computed by `apply` on the current gene
column. -/
def annotate (df : DataFrame) (gene_column : String)
    (said immune : List RefRecord) : DataFrame :=
  let df0 := setCol df gene_column
    (((getCol df gene_column).getD []).map (fun c => some (pyTrim (pyStr c))))
  let d1 := assignApplied df0 gene_column "SAID gene" (said_gene_symbol said)
  let d2 := assignApplied d1 gene_column "SAID disease"
    (fun x => (indexLookup said RefRecord.disease (normalize_key x)).getD "")
  let d3 := assignApplied d2 gene_column "SAID disease inheritance"
    (fun x => (indexLookup said RefRecord.inheritance (normalize_key x)).getD "")
  let d4 := assignApplied d3 gene_column "Immune gene" (said_gene_symbol immune)
  let d5 := assignApplied d4 gene_column "Immune disease"
    (fun x => (indexLookup immune RefRecord.disease (normalize_key x)).getD "")
  assignApplied d5 gene_column "Immune disease inheritance"
    (fun x => (indexLookup immune RefRecord.inheritance (normalize_key x)).getD "")

/-- The stripped string values of the gene column after line 259, i.e. the
values every annotation column is computed from. -/
def strippedVals (df : DataFrame) (g : String) : List String :=
  ((getCol df g).getD []).map (fun c => pyTrim (pyStr c))

/-! Gene-column selection policy of the caller (lines 237-254). -/

/-- Failure modes surfaced to the user by `main`. -/
inductive AnnotError where
  | NoGeneColumnFound (availableColumns : List String)
deriving DecidableEq, Repr

/-- The fallback chain of lines 240-246: auto-detection first, then the
fixed names `gene`, `ann.gene`, `SYMBOL` in that order. -/
def choose_gene_column (df : DataFrame) (referenceSets : List (List String)) : Option String :=
  match guess_gene_column df referenceSets with
  | some c => some c
  | none =>
    if df.cols.any (fun p => p.1 == "gene") then some "gene"
    else if df.cols.any (fun p => p.1 == "ann.gene") then some "ann.gene"
    else if df.cols.any (fun p => p.1 == "SYMBOL") then some "SYMBOL"
    else none

/-- Lines 248-256: if no column was chosen, the request fails with an error
reporting the available columns; otherwise the chosen column is used. -/
def select_gene_column (df : DataFrame) (referenceSets : List (List String)) :
    Except AnnotError String :=
  match choose_gene_column df referenceSets with
  | some c => Except.ok c
  | none => Except.error (AnnotError.NoGeneColumnFound (colNames df))

/-! Basic facts about the lexicographic comparison `strLtB` and the order
`pyLe`, needed to reason about `sorted(...)`. -/

lemma char_eq_of_toNat_eq {a b : Char} (h : a.toNat = b.toNat) : a = b :=
  Char.ext (UInt32.ext h)

lemma strLtB_asymm : ∀ (l₁ l₂ : List Char), strLtB l₁ l₂ = true → strLtB l₂ l₁ = false := by
  intro l₁
  induction l₁ with
  | nil =>
    intro l₂ h
    cases l₂ with
    | nil => simp [strLtB] at h
    | cons b bs => simp [strLtB]
  | cons a as ih =>
    intro l₂ h
    cases l₂ with
    | nil => simp [strLtB] at h
    | cons b bs =>
      simp only [strLtB] at h ⊢
      by_cases h1 : a.toNat < b.toNat
      · have h2 : ¬ b.toNat < a.toNat := by omega
        simp [h1, h2]
      · by_cases h2 : b.toNat < a.toNat
        · simp [h1, h2] at h
        · simp [h1, h2] at h ⊢
          exact ih bs h

lemma strLtB_trans :
    ∀ (l₁ l₂ l₃ : List Char),
      strLtB l₁ l₂ = true → strLtB l₂ l₃ = true → strLtB l₁ l₃ = true := by
  intro l₁
  induction l₁ with
  | nil =>
    intro l₂ l₃ h₁ h₂
    cases l₂ with
    | nil => simp [strLtB] at h₁
    | cons b bs =>
      cases l₃ with
      | nil => simp [strLtB] at h₂
      | cons c cs => simp [strLtB]
  | cons a as ih =>
    intro l₂ l₃ h₁ h₂
    cases l₂ with
    | nil => simp [strLtB] at h₁
    | cons b bs =>
      cases l₃ with
      | nil => simp [strLtB] at h₂
      | cons c cs =>
        simp only [strLtB] at h₁ h₂ ⊢
        by_cases hab : a.toNat < b.toNat
        · by_cases hbc : b.toNat < c.toNat
          · simp [show a.toNat < c.toNat by omega]
          · by_cases hcb : c.toNat < b.toNat
            · simp [hbc, hcb] at h₂
            · simp [show a.toNat < c.toNat by omega]
        · by_cases hba : b.toNat < a.toNat
          · simp [hab, hba] at h₁
          · simp only [hab, hba, if_false] at h₁
            by_cases hbc : b.toNat < c.toNat
            · simp [show a.toNat < c.toNat by omega]
            · by_cases hcb : c.toNat < b.toNat
              · simp [hbc, hcb] at h₂
              · simp only [hbc, hcb, if_false] at h₂
                have hac1 : ¬ a.toNat < c.toNat := by omega
                have hac2 : ¬ c.toNat < a.toNat := by omega
                simp only [hac1, hac2, if_false]
                exact ih bs cs h₁ h₂

lemma strLtB_eq_of_both_false :
    ∀ (l₁ l₂ : List Char), strLtB l₁ l₂ = false → strLtB l₂ l₁ = false → l₁ = l₂ := by
  intro l₁
  induction l₁ with
  | nil =>
    intro l₂ h₁ _
    cases l₂ with
    | nil => rfl
    | cons b bs => simp [strLtB] at h₁
  | cons a as ih =>
    intro l₂ h₁ h₂
    cases l₂ with
    | nil => simp [strLtB] at h₂
    | cons b bs =>
      simp only [strLtB] at h₁ h₂
      by_cases hab : a.toNat < b.toNat
      · simp [hab] at h₁
      · by_cases hba : b.toNat < a.toNat
        · simp [hba, hab] at h₂
        · simp only [hab, hba, if_false] at h₁ h₂
          have : a = b := char_eq_of_toNat_eq (by omega)
          rw [this, ih bs h₁ h₂]

instance pyLe.total : IsTotal String pyLe where
  total a b := by
    cases h : strLtB b.data a.data with
    | false => exact Or.inl h
    | true => exact Or.inr (strLtB_asymm _ _ h)

instance pyLe.trans : IsTrans String pyLe where
  trans a b c hab hbc := by
    unfold pyLe at *
    by_contra hcon
    rw [Bool.not_eq_false] at hcon
    cases h : strLtB a.data b.data with
    | true =>
      have : strLtB c.data b.data = true := strLtB_trans _ _ _ hcon h
      rw [this] at hbc
      exact Bool.true_eq_false.mp hbc
    | false =>
      have heq : a.data = b.data := strLtB_eq_of_both_false _ _ h hab
      rw [heq] at hcon
      rw [hcon] at hbc
      exact Bool.true_eq_false.mp hbc

instance pyLe.antisymm : IsAntisymm String pyLe where
  antisymm _ _ hab hba := String.ext (strLtB_eq_of_both_false _ _ hba hab)

/-- Sorting a deduplicated permutation gives the same list, so `aggJoin` is
permutation-invariant. -/
lemma aggJoin_perm {vs₁ vs₂ : List String} (h : vs₁.Perm vs₂) : aggJoin vs₁ = aggJoin vs₂ := by
  unfold aggJoin
  congr 1
  exact List.eq_of_perm_of_sorted
    (((List.perm_insertionSort pyLe _).trans h.dedup).trans (List.perm_insertionSort pyLe _).symm)
    (List.sorted_insertionSort pyLe _) (List.sorted_insertionSort pyLe _)

/-- The built dictionary has an entry for a key exactly when some record's
normalized gene field equals that key. -/
lemma indexLookup_isSome_iff (records : List RefRecord) (attr : RefRecord → String)
    (key : String) :
    (indexLookup records attr key).isSome ↔ ∃ r ∈ records, geneKeyOf r = key := by
  unfold indexLookup
  by_cases h : groupValues records attr key = []
  · rw [if_pos (List.isEmpty_iff.mpr h)]
    simp only [Option.isSome_none, Bool.false_eq_true, false_iff]
    rintro ⟨r, hr, hk⟩
    have : attr r ∈ groupValues records attr key := by
      unfold groupValues
      exact List.mem_map_of_mem attr (List.mem_filter.mpr ⟨hr, by simp [hk]⟩)
    rw [h] at this
    exact absurd this (List.not_mem_nil _)
  · rw [if_neg (fun hc => h (List.isEmpty_iff.mp hc))]
    simp only [Option.isSome_some, true_iff]
    obtain ⟨v, hv⟩ := List.exists_mem_of_ne_nil _ h
    unfold groupValues at hv
    obtain ⟨r, hr, _⟩ := List.mem_map.mp hv
    exact ⟨r, (List.mem_filter.mp hr).1, by simpa using (List.mem_filter.mp hr).2⟩

/-- C3: index building groups rows whose gene symbols normalize to the same
key into a single entry whose attribute fields are the distinct raw values,
sorted lexicographically and joined with `"; "`; in particular the rows
`("BRCA1","Cancer","AD")` and `("brca1","CancerType2","AR")` yield one entry
under `BRCA1` with disease `"Cancer; CancerType2"` and inheritance
`"AD; AR"`. -/
theorem claim_C3 :
    (∀ (records : List RefRecord) (attr : RefRecord → String) (key : String),
       (indexLookup records attr key).isSome ↔ ∃ r ∈ records, geneKeyOf r = key)
    ∧ indexKeys [⟨some "BRCA1", "Cancer", "AD"⟩, ⟨some "brca1", "CancerType2", "AR"⟩]
        = ["BRCA1"]
    ∧ indexLookup [⟨some "BRCA1", "Cancer", "AD"⟩, ⟨some "brca1", "CancerType2", "AR"⟩]
        RefRecord.disease "BRCA1" = some "Cancer; CancerType2"
    ∧ indexLookup [⟨some "BRCA1", "Cancer", "AD"⟩, ⟨some "brca1", "CancerType2", "AR"⟩]
        RefRecord.inheritance "BRCA1" = some "AD; AR" :=
  ⟨indexLookup_isSome_iff, by decide, by decide, by decide⟩

/-- Witness for C3: a one-record index has an entry for the record's key. -/
theorem claim_C3_witness :
    (indexLookup [⟨some "TP53", "D", "I"⟩] RefRecord.disease "TP53").isSome :=
  (claim_C3.1 [⟨some "TP53", "D", "I"⟩] RefRecord.disease "TP53").mpr
    ⟨⟨some "TP53", "D", "I"⟩, by decide, by decide⟩

/-- C4: building the reference index is order-independent — a permutation of
the records yields the same mapping (same keys, same joined strings). -/
theorem claim_C4 (records₁ records₂ : List RefRecord) (hp : records₁.Perm records₂) :
    (∀ (attr : RefRecord → String) (key : String),
       indexLookup records₁ attr key = indexLookup records₂ attr key)
    ∧ (∀ k, k ∈ indexKeys records₁ ↔ k ∈ indexKeys records₂) := by
  constructor
  · intro attr key
    have hgv : (groupValues records₁ attr key).Perm (groupValues records₂ attr key) :=
      (hp.filter _).map _
    unfold indexLookup
    by_cases h : groupValues records₂ attr key = []
    · have h' : groupValues records₁ attr key = [] := (h ▸ hgv).eq_nil
      rw [if_pos (List.isEmpty_iff.mpr h), if_pos (List.isEmpty_iff.mpr h')]
    · have h' : groupValues records₁ attr key ≠ [] := fun hn => h (hn ▸ hgv.symm).eq_nil
      rw [if_neg (fun hc => h (List.isEmpty_iff.mp hc)),
        if_neg (fun hc => h' (List.isEmpty_iff.mp hc))]
      exact congrArg some (aggJoin_perm hgv)
  · intro k
    unfold indexKeys
    rw [List.mem_dedup, List.mem_dedup]
    exact (hp.map geneKeyOf).mem_iff

/-- Witness for C4 at a concrete pair of record lists related by a swap. -/
theorem claim_C4_witness :
    indexLookup [⟨some "BRCA1", "Cancer", "AD"⟩, ⟨some "TP53", "X", "AR"⟩]
        RefRecord.disease "BRCA1"
      = indexLookup [⟨some "TP53", "X", "AR"⟩, ⟨some "BRCA1", "Cancer", "AD"⟩]
        RefRecord.disease "BRCA1" :=
  (claim_C4 _ _ (by decide)).1 RefRecord.disease "BRCA1"

/-- C6 counterexample: the code never drops rows whose gene field is missing
or normalizes to the empty key. A reference row whose gene field is
whitespace-only puts the empty string into the index as a key, a
whitespace-only input value then matches that entry, and a row with a
missing gene field is indexed under the key `"NAN"`. -/
theorem claim_C6_counterexample :
    "" ∈ indexKeys [⟨some "  ", "D", "I"⟩]
    ∧ indexLookup [⟨some "  ", "D", "I"⟩] RefRecord.disease (normalize_key " ") = some "D"
    ∧ indexKeys [⟨none, "D", "I"⟩] = ["NAN"] :=
  ⟨by decide, by decide, by decide⟩

/-- C6 amended: rows with missing or empty-normalizing gene fields are not
dropped before indexing — the index keys are exactly the normalized gene
fields of all rows, a missing gene field yields the key `"NAN"`, a
whitespace-only one yields the empty key, and an input value normalizing to
the empty key matches an index entry exactly when some row's gene field
normalizes to the empty key. -/
theorem claim_C6 :
    (∀ (records : List RefRecord) (k : String),
       k ∈ indexKeys records ↔ ∃ r ∈ records, geneKeyOf r = k)
    ∧ (∀ (records : List RefRecord) (attr : RefRecord → String),
       (indexLookup records attr "").isSome ↔ ∃ r ∈ records, geneKeyOf r = "")
    ∧ geneKeyOf ⟨none, "D", "I"⟩ = "NAN"
    ∧ geneKeyOf ⟨some "  ", "D", "I"⟩ = "" := by
  refine ⟨?_, fun records attr => indexLookup_isSome_iff records attr "", by decide, by decide⟩
  intro records k
  unfold indexKeys
  rw [List.mem_dedup]
  exact List.mem_map

/-- Witness for C6 (amended): a whitespace-only gene field gives an entry
under the empty key, matched by an empty-normalizing input. -/
theorem claim_C6_witness :
    (indexLookup [⟨some " ", "Dis", "AR"⟩] RefRecord.disease "").isSome :=
  (claim_C6.2.1 [⟨some " ", "Dis", "AR"⟩] RefRecord.disease).mpr
    ⟨⟨some " ", "Dis", "AR"⟩, by decide, by decide⟩

/-- Splitting an all-whitespace character list yields no tokens. -/
lemma splitWsAux_all_ws (cs : List Char) (h : ∀ c ∈ cs, c.isWhitespace) :
    splitWsAux cs [] = [] := by
  induction cs with
  | nil => rfl
  | cons c cs ih =>
    simp only [splitWsAux, h c (List.mem_cons_self c cs), if_true, List.isEmpty_nil]
    exact ih (fun d hd => h d (List.mem_cons_of_mem c hd))

/-- Membership in the matcher's result is joint membership of the lowercased
token in both split texts. -/
lemma mem_find_matching (list1 list2 g : String) :
    g ∈ find_matching_genes list1 list2 ↔
      (∃ t ∈ pySplit list1, pyLower t = g) ∧ (∃ t ∈ pySplit list2, pyLower t = g) := by
  unfold find_matching_genes
  simp [List.mem_filter, List.mem_dedup, List.mem_map, List.elem_iff]

/-- C9: the matcher splits each text on whitespace, lowercases every token
and intersects the two token sets; `"BRCA1 TP53"` vs `"brca1 egfr"` gives
exactly `brca1`, and an empty or whitespace-only input on either side gives
the empty set. -/
theorem claim_C9 :
    (∀ (list1 list2 g : String),
       g ∈ find_matching_genes list1 list2 ↔
         (∃ t ∈ pySplit list1, pyLower t = g) ∧ (∃ t ∈ pySplit list2, pyLower t = g))
    ∧ find_matching_genes "BRCA1 TP53" "brca1 egfr" = ["brca1"]
    ∧ (∀ list1 list2 : String, (∀ c ∈ list1.data, c.isWhitespace) →
        find_matching_genes list1 list2 = [])
    ∧ (∀ list1 list2 : String, (∀ c ∈ list2.data, c.isWhitespace) →
        find_matching_genes list1 list2 = []) := by
  refine ⟨mem_find_matching, by decide, ?_, ?_⟩
  · intro list1 list2 h
    unfold find_matching_genes pySplit
    rw [splitWsAux_all_ws _ h]
    rfl
  · intro list1 list2 h
    unfold find_matching_genes pySplit
    rw [splitWsAux_all_ws _ h]
    simp

/-- Witness for C9: concrete empty and whitespace-only inputs, and the
stated concrete intersection. -/
theorem claim_C9_witness :
    find_matching_genes " \t " "TP53" = [] ∧ find_matching_genes "TP53" "" = []
      ∧ "brca1" ∈ find_matching_genes "BRCA1 TP53" "brca1 egfr" :=
  ⟨claim_C9.2.2.1 " \t " "TP53" (by decide), claim_C9.2.2.2 "TP53" "" (by decide),
   (claim_C9.1 "BRCA1 TP53" "brca1 egfr" "brca1").mpr
     ⟨⟨"BRCA1", by decide, by decide⟩, ⟨"brca1", by decide, by decide⟩⟩⟩

/-- Values surviving the `v.upper() != "NAN"` filter are never `"NAN"`. -/
lemma ne_nan_of_mem_candidateVals {cells : List (Option String)} {v : String}
    (hv : v ∈ candidateVals cells) : v ≠ "NAN" := by
  unfold candidateVals at hv
  rw [List.mem_dedup] at hv
  obtain ⟨w, hw, rfl⟩ := List.mem_map.mp hv
  have hcond := (List.mem_filter.mp hw).2
  simp only [Bool.and_eq_true, bne_iff_ne, ne_eq] at hcond
  exact hcond.2

/-- C10: cells whose stripped uppercased form is `"NAN"` (the string shape
of a missing value) are excluded from the candidate set, so the overlap
score is unchanged by removing `"NAN"` from the reference vocabulary, even
though `"nan"` itself passes the symbol-shape filter. -/
theorem claim_C10 :
    (∀ cells : List (Option String), "NAN" ∉ candidateVals cells)
    ∧ (∀ (refGenes : List String) (cells : List (Option String)),
        columnScore refGenes cells
          = columnScore (refGenes.filter (fun g => g != "NAN")) cells)
    ∧ columnScore ["TP53", "NAN"] [some "TP53", none] = some 1
    ∧ symbolShape (pyTrim (pyStr none)) = true := by
  refine ⟨?_, ?_, by decide, by decide⟩
  · intro cells hc
    exact ne_nan_of_mem_candidateVals hc rfl
  · intro refGenes cells
    simp only [columnScore]
    by_cases h1 : (colSeries cells).isEmpty = true
    · rw [if_pos h1, if_pos h1]
    · rw [if_neg h1, if_neg h1]
      by_cases h2 : ((colSeries cells).filter symbolShape).isEmpty = true
      · rw [if_pos h2, if_pos h2]
      · rw [if_neg h2, if_neg h2]
        congr 2
        apply List.filter_congr
        intro v hv
        have hne := ne_nan_of_mem_candidateVals hv
        rw [Bool.eq_iff_iff, List.elem_iff, List.elem_iff, List.mem_filter]
        simp [hne]

/-- Witness for C10 at a concrete column containing a missing cell. -/
theorem claim_C10_witness :
    "NAN" ∉ candidateVals [some "nan", some "TP53"]
    ∧ columnScore ["NAN"] [some "nan"]
        = columnScore (["NAN"].filter (fun g => g != "NAN")) [some "nan"] :=
  ⟨claim_C10.1 [some "nan", some "TP53"], claim_C10.2.1 ["NAN"] [some "nan"]⟩

/-- Once every remaining column's score is bounded by the current best
score, the loop never updates its state (the comparison is strict). -/
lemma guessAux_no_update (refGenes : List String) :
    ∀ (cols : List (String × List (Option String))) (b : Option String) (s : Int),
      (∀ p ∈ cols, ∀ k : Nat, columnScore refGenes p.2 = some k → (k : Int) ≤ s) →
      guessAux refGenes cols (b, s) = (b, s) := by
  intro cols
  induction cols with
  | nil => intro b s _; rfl
  | cons p rest ih =>
    intro b s h
    obtain ⟨name, cells⟩ := p
    simp only [guessAux]
    cases hsc : columnScore refGenes cells with
    | none =>
      simp only [hsc]
      exact ih b s (fun q hq k hk => h q (List.mem_cons_of_mem _ hq) k hk)
    | some ov =>
      simp only [hsc]
      have hle : (ov : Int) ≤ s := h (name, cells) (List.mem_cons_self _ _) ov hsc
      rw [if_neg (by omega)]
      exact ih b s (fun q hq k hk => h q (List.mem_cons_of_mem _ hq) k hk)

/-- When `m` is the maximal achieved score and exceeds the current best, the
loop ends on the first column achieving `m`. -/
lemma guessAux_argmax (refGenes : List String) :
    ∀ (cols : List (String × List (Option String))) (b : Option String) (s : Int) (m : Nat),
      (∀ p ∈ cols, (columnScore refGenes p.2).getD 0 ≤ m) →
      (∃ p ∈ cols, columnScore refGenes p.2 = some m) →
      s < (m : Int) →
      (guessAux refGenes cols (b, s)).1 = firstColWithScore refGenes m cols := by
  intro cols
  induction cols with
  | nil =>
    intro b s m _ hex _
    obtain ⟨p, hp, _⟩ := hex
    exact absurd hp (List.not_mem_nil p)
  | cons p rest ih =>
    intro b s m hbd hex hs
    obtain ⟨name, cells⟩ := p
    simp only [guessAux, firstColWithScore]
    cases hsc : columnScore refGenes cells with
    | none =>
      simp only [hsc]
      rw [if_neg (by simp)]
      refine ih b s m (fun q hq => hbd q (List.mem_cons_of_mem _ hq)) ?_ hs
      obtain ⟨q, hq, hqs⟩ := hex
      cases List.mem_cons.mp hq with
      | inl h => rw [h, hsc] at hqs; exact absurd hqs (by simp)
      | inr h => exact ⟨q, h, hqs⟩
    | some ov =>
      simp only [hsc]
      by_cases hm : ov = m
      · subst hm
        rw [if_pos (show some ov = some ov from rfl),
          if_pos (show s < (ov : Int) by omega)]
        rw [guessAux_no_update refGenes rest (some name) (ov : Int) ?_]
        · intro q hq k hk
          have hc := hbd q (List.mem_cons_of_mem _ hq)
          rw [hk] at hc
          exact_mod_cast hc
      · have hov : ov ≤ m := by
          have hc := hbd (name, cells) (List.mem_cons_self _ _)
          rw [hsc] at hc
          simpa using hc
        have hlt : ov < m := lt_of_le_of_ne hov hm
        rw [if_neg (show ¬ (some ov = some m) from by simp [hm])]
        have hex' : ∃ q ∈ rest, columnScore refGenes q.2 = some m := by
          obtain ⟨q, hq, hqs⟩ := hex
          cases List.mem_cons.mp hq with
          | inl h =>
            exfalso
            rw [h, hsc] at hqs
            exact hm (by injection hqs)
          | inr h => exact ⟨q, h, hqs⟩
        by_cases hcase : s < (ov : Int)
        · rw [if_pos hcase]
          exact ih (some name) (ov : Int) m (fun q hq => hbd q (List.mem_cons_of_mem _ hq))
            hex' (by exact_mod_cast hlt)
        · rw [if_neg hcase]
          exact ih b s m (fun q hq => hbd q (List.mem_cons_of_mem _ hq)) hex' hs

/-- A column none of whose stringified, stripped cells passes the
symbol-shape filter is skipped. -/
lemma columnScore_none_of_no_shape (refGenes : List String) (cells : List (Option String))
    (h : ∀ c ∈ cells, symbolShape (pyTrim (pyStr c)) = false) :
    columnScore refGenes cells = none := by
  simp only [columnScore]
  by_cases h1 : (colSeries cells).isEmpty = true
  · rw [if_pos h1]
  · rw [if_neg h1]
    have hm : (colSeries cells).filter symbolShape = [] := by
      rw [List.filter_eq_nil_iff]
      intro a ha
      simp only [colSeries, List.mem_map] at ha
      obtain ⟨c, hc, rfl⟩ := ha
      simp [h c hc]
    rw [if_pos (List.isEmpty_iff.mpr hm)]

lemma firstShapeCol_eq_none (refGenes : List String) :
    ∀ cols, (∀ p ∈ cols, columnScore refGenes p.2 = none) →
      firstShapeCol refGenes cols = none := by
  intro cols
  induction cols with
  | nil => intro _; rfl
  | cons p rest ih =>
    intro h
    obtain ⟨name, cells⟩ := p
    simp only [firstShapeCol]
    rw [h (name, cells) (List.mem_cons_self _ _)]
    simpa using ih (fun q hq => h q (List.mem_cons_of_mem _ hq))

lemma firstColWithScore_zero_eq_firstShape (refGenes : List String) :
    ∀ cols, (∀ p ∈ cols, columnScore refGenes p.2 = none
        ∨ columnScore refGenes p.2 = some 0) →
      firstColWithScore refGenes 0 cols = firstShapeCol refGenes cols := by
  intro cols
  induction cols with
  | nil => intro _; rfl
  | cons p rest ih =>
    intro h
    obtain ⟨name, cells⟩ := p
    simp only [firstColWithScore, firstShapeCol]
    cases h (name, cells) (List.mem_cons_self _ _) with
    | inl hn => rw [hn]; simpa using ih (fun q hq => h q (List.mem_cons_of_mem _ hq))
    | inr hz => rw [hz]; simp

/-- C1: the detector returns `None` when no column has a value matching the
symbol shape; and if every column's overlap score is zero (or the column is
skipped) it returns the first column passing the shape filter — a non-`None`
answer as soon as any column passes, even with zero overlap. -/
theorem claim_C1 (df : DataFrame) (referenceSets : List (List String)) :
    ((∀ p ∈ df.cols, ∀ c ∈ p.2, symbolShape (pyTrim (pyStr c)) = false) →
      guess_gene_column df referenceSets = none)
    ∧ ((∀ p ∈ df.cols, columnScore (refUnion referenceSets) p.2 = none
          ∨ columnScore (refUnion referenceSets) p.2 = some 0) →
      guess_gene_column df referenceSets
        = firstShapeCol (refUnion referenceSets) df.cols) := by
  constructor
  · intro h
    unfold guess_gene_column
    rw [guessAux_no_update (refUnion referenceSets) df.cols none (-1)
      (fun p hp k hk => absurd hk
        (by simp [columnScore_none_of_no_shape (refUnion referenceSets) p.2 (h p hp)]))]
  · intro h
    by_cases hex : ∃ p ∈ df.cols, columnScore (refUnion referenceSets) p.2 = some 0
    · unfold guess_gene_column
      rw [guessAux_argmax (refUnion referenceSets) df.cols none (-1) 0 ?_ hex (by omega)]
      · exact firstColWithScore_zero_eq_firstShape _ df.cols h
      · intro p hp
        cases h p hp with
        | inl hn => rw [hn]; simp
        | inr hz => rw [hz]; simp
    · push_neg at hex
      have hall : ∀ p ∈ df.cols, columnScore (refUnion referenceSets) p.2 = none :=
        fun p hp => (h p hp).resolve_right (hex p hp)
      unfold guess_gene_column
      rw [guessAux_no_update (refUnion referenceSets) df.cols none (-1)
        (fun p hp k hk => absurd hk (by simp [hall p hp]))]
      exact (firstShapeCol_eq_none _ df.cols hall).symm

/-- Witness for C1: a table with no shape-passing value yields `None`; a
table whose columns all score zero yields its first shape-passing column. -/
theorem claim_C1_witness :
    guess_gene_column ⟨[("a", [some "123"]), ("b", [some "!!"]), ("c", [])]⟩ [] = none
    ∧ guess_gene_column ⟨[("num", [some "123"]), ("g1", [some "AAA"]), ("g2", [some "BBB"])]⟩ []
        = some "g1" :=
  ⟨(claim_C1 ⟨[("a", [some "123"]), ("b", [some "!!"]), ("c", [])]⟩ []).1 (by decide),
   ((claim_C1 ⟨[("num", [some "123"]), ("g1", [some "AAA"]), ("g2", [some "BBB"])]⟩ []).2
     (by decide)).trans (by decide)⟩

/-- C2: when `m` is the maximal overlap score and some column achieves it,
the detector returns the first column achieving `m` — ties keep the column
that comes first, and a later column wins only by a strictly greater score. -/
theorem claim_C2 (df : DataFrame) (referenceSets : List (List String)) (m : Nat)
    (hbd : ∀ p ∈ df.cols, (columnScore (refUnion referenceSets) p.2).getD 0 ≤ m)
    (hex : ∃ p ∈ df.cols, columnScore (refUnion referenceSets) p.2 = some m) :
    guess_gene_column df referenceSets
      = firstColWithScore (refUnion referenceSets) m df.cols := by
  unfold guess_gene_column
  exact guessAux_argmax _ df.cols none (-1) m hbd hex (by omega)

/-- Witness for C2: two columns with the same nonzero overlap; the first one
is returned. -/
theorem claim_C2_witness :
    guess_gene_column ⟨[("A", [some "TP53"]), ("B", [some "TP53"])]⟩ [["TP53"]] = some "A" :=
  (claim_C2 ⟨[("A", [some "TP53"]), ("B", [some "TP53"])]⟩ [["TP53"]] 1
    (by decide) (by decide)).trans (by decide)

/-! Lemmas about column read/write, mirroring pandas `df[name]` semantics. -/

lemma any_fst_beq (l : List (String × List (Option String))) (n : String) :
    l.any (fun p => p.1 == n) = true ↔ n ∈ l.map Prod.fst := by
  rw [List.any_eq_true]
  constructor
  · rintro ⟨p, hp, hbeq⟩
    exact List.mem_map.mpr ⟨p, hp, by simpa using hbeq⟩
  · intro hm
    obtain ⟨p, hp, he⟩ := List.mem_map.mp hm
    exact ⟨p, hp, by simp [he]⟩

lemma find?_map_set_self (l : List (String × List (Option String))) (n : String)
    (cells : List (Option String)) (h : l.any (fun p => p.1 == n) = true) :
    (l.map (fun p => if p.1 == n then (n, cells) else p)).find? (fun p => p.1 == n)
      = some (n, cells) := by
  induction l with
  | nil => simp at h
  | cons p rest ih =>
    simp only [List.map_cons]
    by_cases hp : (p.1 == n) = true
    · rw [if_pos hp, List.find?_cons_of_pos (p := fun q : String × List (Option String) => q.1 == n) _ (by simp)]
    · rw [if_neg hp, List.find?_cons_of_neg (p := fun q : String × List (Option String) => q.1 == n) _ (by simp [hp])]
      simp only [List.any_cons, hp, Bool.false_or] at h
      exact ih h

lemma find?_map_set_ne (l : List (String × List (Option String))) (n m : String)
    (cells : List (Option String)) (hnm : m ≠ n) :
    (l.map (fun p => if p.1 == n then (n, cells) else p)).find? (fun p => p.1 == m)
      = l.find? (fun p => p.1 == m) := by
  induction l with
  | nil => rfl
  | cons p rest ih =>
    simp only [List.map_cons]
    by_cases hp : (p.1 == n) = true
    · have hpn : p.1 = n := by simpa using hp
      rw [if_pos hp, List.find?_cons_of_neg (p := fun q : String × List (Option String) => q.1 == m) _ (by simp [Ne.symm hnm]),
        List.find?_cons_of_neg (p := fun q : String × List (Option String) => q.1 == m) _ (by simp [hpn, Ne.symm hnm])]
      exact ih
    · rw [if_neg hp]
      by_cases hq : (p.1 == m) = true
      · rw [List.find?_cons_of_pos (p := fun q : String × List (Option String) => q.1 == m) _ hq,
          List.find?_cons_of_pos (p := fun q : String × List (Option String) => q.1 == m) _ hq]
      · rw [List.find?_cons_of_neg (p := fun q : String × List (Option String) => q.1 == m) _ (by simp [hq]),
          List.find?_cons_of_neg (p := fun q : String × List (Option String) => q.1 == m) _ (by simp [hq])]
        exact ih

lemma find?_append_single_self (l : List (String × List (Option String))) (n : String)
    (cells : List (Option String)) (h : l.any (fun p => p.1 == n) = false) :
    (l ++ [(n, cells)]).find? (fun p => p.1 == n) = some (n, cells) := by
  induction l with
  | nil => rw [List.nil_append, List.find?_cons_of_pos (p := fun q : String × List (Option String) => q.1 == n) _ (by simp)]
  | cons p rest ih =>
    simp only [List.any_cons, Bool.or_eq_false_iff] at h
    rw [List.cons_append, List.find?_cons_of_neg (p := fun q : String × List (Option String) => q.1 == n) _ (by simp [h.1])]
    exact ih h.2

lemma find?_append_single_ne (l : List (String × List (Option String))) (n m : String)
    (cells : List (Option String)) (hnm : m ≠ n) :
    (l ++ [(n, cells)]).find? (fun p => p.1 == m) = l.find? (fun p => p.1 == m) := by
  induction l with
  | nil =>
    rw [List.nil_append, List.find?_cons_of_neg (p := fun q : String × List (Option String) => q.1 == m) _
      (by simp [Ne.symm hnm])]
  | cons p rest ih =>
    by_cases hq : (p.1 == m) = true
    · rw [List.cons_append, List.find?_cons_of_pos (p := fun q : String × List (Option String) => q.1 == m) _ hq,
        List.find?_cons_of_pos (p := fun q : String × List (Option String) => q.1 == m) _ hq]
    · rw [List.cons_append, List.find?_cons_of_neg (p := fun q : String × List (Option String) => q.1 == m) _ (by simp [hq]),
        List.find?_cons_of_neg (p := fun q : String × List (Option String) => q.1 == m) _ (by simp [hq])]
      exact ih

lemma getCol_setCol_self (df : DataFrame) (n : String) (cells : List (Option String)) :
    getCol (setCol df n cells) n = some cells := by
  unfold getCol setCol
  by_cases h : df.cols.any (fun p => p.1 == n) = true
  · rw [if_pos h]
    show ((df.cols.map _).find? _).map Prod.snd = _
    rw [find?_map_set_self df.cols n cells h]
    rfl
  · rw [if_neg h]
    show ((df.cols ++ [(n, cells)]).find? _).map Prod.snd = _
    rw [find?_append_single_self df.cols n cells (Bool.eq_false_iff.mpr h)]
    rfl

lemma getCol_setCol_ne (df : DataFrame) (n m : String) (cells : List (Option String))
    (hnm : m ≠ n) : getCol (setCol df n cells) m = getCol df m := by
  unfold getCol setCol
  by_cases h : df.cols.any (fun p => p.1 == n) = true
  · rw [if_pos h]
    show ((df.cols.map _).find? _).map Prod.snd = _
    rw [find?_map_set_ne df.cols n m cells hnm]
  · rw [if_neg h]
    show ((df.cols ++ [(n, cells)]).find? _).map Prod.snd = _
    rw [find?_append_single_ne df.cols n m cells hnm]

lemma mem_setCol_of_ne (df : DataFrame) (n : String) (cells : List (Option String))
    {p : String × List (Option String)} (hp : p ∈ df.cols) (hne : p.1 ≠ n) :
    p ∈ (setCol df n cells).cols := by
  unfold setCol
  by_cases h : df.cols.any (fun q => q.1 == n) = true
  · rw [if_pos h]
    have heq : (fun q => if q.1 == n then (n, cells) else q) p = p := by simp [hne]
    exact heq ▸ List.mem_map_of_mem _ hp
  · rw [if_neg h]
    exact List.mem_append_left _ hp

lemma colNames_setCol (df : DataFrame) (n : String) (cells : List (Option String)) :
    colNames (setCol df n cells)
      = if n ∈ colNames df then colNames df else colNames df ++ [n] := by
  unfold colNames setCol
  by_cases h : df.cols.any (fun p => p.1 == n) = true
  · rw [if_pos h, if_pos ((any_fst_beq df.cols n).mp h)]
    show (df.cols.map _).map Prod.fst = _
    rw [List.map_map]
    apply List.map_congr_left
    intro q _
    by_cases hq : (q.1 == n) = true
    · simp [Function.comp, hq, (show q.1 = n by simpa using hq).symm]
    · simp [Function.comp, hq]
  · rw [if_neg h, if_neg (fun hc => h ((any_fst_beq df.cols n).mpr hc))]
    simp

lemma getCol_assignApplied_self (df : DataFrame) (g name : String) (f : String → String) :
    getCol (assignApplied df g name f) name
      = some (((getCol df g).getD []).map (fun c => some (f (pyStr c)))) :=
  getCol_setCol_self _ _ _

lemma getCol_assignApplied_ne (df : DataFrame) (g name m : String) (f : String → String)
    (h : m ≠ name) : getCol (assignApplied df g name f) m = getCol df m :=
  getCol_setCol_ne _ _ _ _ h

lemma mem_assignApplied_of_ne (df : DataFrame) (g name : String) (f : String → String)
    {p : String × List (Option String)} (hp : p ∈ df.cols) (hne : p.1 ≠ name) :
    p ∈ (assignApplied df g name f).cols :=
  mem_setCol_of_ne _ _ _ hp hne

lemma colNames_assignApplied (df : DataFrame) (g name : String) (f : String → String) :
    colNames (assignApplied df g name f)
      = if name ∈ colNames df then colNames df else colNames df ++ [name] :=
  colNames_setCol _ _ _

/-- After the processing step, the gene column holds the stripped values and
each of the six appended columns is the row-wise lookup the code assigns to
it. -/
lemma annotate_getCol_eqs (df : DataFrame) (g : String) (said immune : List RefRecord)
    (hg : g ∉ annotNames) :
    getCol (annotate df g said immune) g = some ((strippedVals df g).map some)
    ∧ getCol (annotate df g said immune) "SAID gene"
        = some ((strippedVals df g).map (fun x => some (said_gene_symbol said x)))
    ∧ getCol (annotate df g said immune) "SAID disease"
        = some ((strippedVals df g).map
            (fun x => some ((indexLookup said RefRecord.disease (normalize_key x)).getD "")))
    ∧ getCol (annotate df g said immune) "SAID disease inheritance"
        = some ((strippedVals df g).map
            (fun x => some ((indexLookup said RefRecord.inheritance (normalize_key x)).getD "")))
    ∧ getCol (annotate df g said immune) "Immune gene"
        = some ((strippedVals df g).map (fun x => some (said_gene_symbol immune x)))
    ∧ getCol (annotate df g said immune) "Immune disease"
        = some ((strippedVals df g).map
            (fun x => some ((indexLookup immune RefRecord.disease (normalize_key x)).getD "")))
    ∧ getCol (annotate df g said immune) "Immune disease inheritance"
        = some ((strippedVals df g).map
            (fun x => some ((indexLookup immune RefRecord.inheritance (normalize_key x)).getD ""))) := by
  simp only [annotNames, List.mem_cons, List.not_mem_nil, or_false, not_or] at hg
  obtain ⟨hg1, hg2, hg3, hg4, hg5, hg6⟩ := hg
  simp only [annotate]
  refine ⟨?_, ?_, ?_, ?_, ?_, ?_, ?_⟩
  · rw [getCol_assignApplied_ne _ _ _ _ _ hg6, getCol_assignApplied_ne _ _ _ _ _ hg5,
      getCol_assignApplied_ne _ _ _ _ _ hg4, getCol_assignApplied_ne _ _ _ _ _ hg3,
      getCol_assignApplied_ne _ _ _ _ _ hg2, getCol_assignApplied_ne _ _ _ _ _ hg1,
      getCol_setCol_self]
    simp [strippedVals, List.map_map, Function.comp]
  · rw [getCol_assignApplied_ne _ _ _ _ _ (by decide), getCol_assignApplied_ne _ _ _ _ _
      (by decide), getCol_assignApplied_ne _ _ _ _ _ (by decide),
      getCol_assignApplied_ne _ _ _ _ _ (by decide), getCol_assignApplied_ne _ _ _ _ _
      (by decide), getCol_assignApplied_self, getCol_setCol_self]
    simp [strippedVals, List.map_map, Function.comp, pyStr]
  · rw [getCol_assignApplied_ne _ _ _ _ _ (by decide), getCol_assignApplied_ne _ _ _ _ _
      (by decide), getCol_assignApplied_ne _ _ _ _ _ (by decide),
      getCol_assignApplied_ne _ _ _ _ _ (by decide), getCol_assignApplied_self,
      getCol_assignApplied_ne _ _ _ _ _ hg1, getCol_setCol_self]
    simp [strippedVals, List.map_map, Function.comp, pyStr]
  · rw [getCol_assignApplied_ne _ _ _ _ _ (by decide), getCol_assignApplied_ne _ _ _ _ _
      (by decide), getCol_assignApplied_ne _ _ _ _ _ (by decide), getCol_assignApplied_self,
      getCol_assignApplied_ne _ _ _ _ _ hg2, getCol_assignApplied_ne _ _ _ _ _ hg1,
      getCol_setCol_self]
    simp [strippedVals, List.map_map, Function.comp, pyStr]
  · rw [getCol_assignApplied_ne _ _ _ _ _ (by decide), getCol_assignApplied_ne _ _ _ _ _
      (by decide), getCol_assignApplied_self, getCol_assignApplied_ne _ _ _ _ _ hg3,
      getCol_assignApplied_ne _ _ _ _ _ hg2, getCol_assignApplied_ne _ _ _ _ _ hg1,
      getCol_setCol_self]
    simp [strippedVals, List.map_map, Function.comp, pyStr]
  · rw [getCol_assignApplied_ne _ _ _ _ _ (by decide), getCol_assignApplied_self,
      getCol_assignApplied_ne _ _ _ _ _ hg4, getCol_assignApplied_ne _ _ _ _ _ hg3,
      getCol_assignApplied_ne _ _ _ _ _ hg2, getCol_assignApplied_ne _ _ _ _ _ hg1,
      getCol_setCol_self]
    simp [strippedVals, List.map_map, Function.comp, pyStr]
  · rw [getCol_assignApplied_self, getCol_assignApplied_ne _ _ _ _ _ hg5,
      getCol_assignApplied_ne _ _ _ _ _ hg4, getCol_assignApplied_ne _ _ _ _ _ hg3,
      getCol_assignApplied_ne _ _ _ _ _ hg2, getCol_assignApplied_ne _ _ _ _ _ hg1,
      getCol_setCol_self]
    simp [strippedVals, List.map_map, Function.comp, pyStr]

/-- C5: for every row, each reference contributes one column holding the
normalized key when present in the index (else empty) and one column per
attribute holding the aggregated string when present (else empty); with
empty reference lists every annotation column is all empty strings. -/
theorem claim_C5 (df : DataFrame) (g : String) (said immune : List RefRecord)
    (hg : g ∉ annotNames) :
    getCol (annotate df g said immune) "SAID gene"
        = some ((strippedVals df g).map (fun x => some (said_gene_symbol said x)))
    ∧ getCol (annotate df g said immune) "SAID disease"
        = some ((strippedVals df g).map
            (fun x => some ((indexLookup said RefRecord.disease (normalize_key x)).getD "")))
    ∧ getCol (annotate df g said immune) "SAID disease inheritance"
        = some ((strippedVals df g).map
            (fun x => some ((indexLookup said RefRecord.inheritance (normalize_key x)).getD "")))
    ∧ getCol (annotate df g said immune) "Immune gene"
        = some ((strippedVals df g).map (fun x => some (said_gene_symbol immune x)))
    ∧ getCol (annotate df g said immune) "Immune disease"
        = some ((strippedVals df g).map
            (fun x => some ((indexLookup immune RefRecord.disease (normalize_key x)).getD "")))
    ∧ getCol (annotate df g said immune) "Immune disease inheritance"
        = some ((strippedVals df g).map
            (fun x => some ((indexLookup immune RefRecord.inheritance (normalize_key x)).getD "")))
    ∧ (∀ name ∈ annotNames, getCol (annotate df g [] []) name
        = some ((strippedVals df g).map (fun _ => some ""))) := by
  obtain ⟨-, e1, e2, e3, e4, e5, e6⟩ := annotate_getCol_eqs df g said immune hg
  refine ⟨e1, e2, e3, e4, e5, e6, ?_⟩
  obtain ⟨-, f1, f2, f3, f4, f5, f6⟩ := annotate_getCol_eqs df g [] [] hg
  have hnil : ∀ (attr : RefRecord → String) (key : String), indexLookup [] attr key = none :=
    fun _ _ => rfl
  intro name hname
  simp only [annotNames, List.mem_cons, List.not_mem_nil, or_false] at hname
  rcases hname with rfl | rfl | rfl | rfl | rfl | rfl
  · rw [f1]; simp [said_gene_symbol, hnil]
  · rw [f2]; simp [hnil]
  · rw [f3]; simp [hnil]
  · rw [f4]; simp [said_gene_symbol, hnil]
  · rw [f5]; simp [hnil]
  · rw [f6]; simp [hnil]

/-- Witness for C5: a one-column table annotated against a one-record SAID
list and an empty Immune list. -/
theorem claim_C5_witness :
    getCol (annotate ⟨[("g", [some " BRCA1 ", none])]⟩ "g"
        [⟨some "BRCA1", "Cancer", "AD"⟩] []) "SAID disease"
      = some [some "Cancer", some ""]
    ∧ getCol (annotate ⟨[("g", [some " BRCA1 ", none])]⟩ "g" [] []) "Immune gene"
      = some [some "", some ""] :=
  ⟨((claim_C5 ⟨[("g", [some " BRCA1 ", none])]⟩ "g" [⟨some "BRCA1", "Cancer", "AD"⟩] []
      (by decide)).2.1).trans (by decide),
   ((claim_C5 ⟨[("g", [some " BRCA1 ", none])]⟩ "g" [] [] (by decide)).2.2.2.2.2.2
      "Immune gene" (by decide)).trans (by decide)⟩

/-- C7 counterexample: the step is not value-preserving on the gene column —
a cell `" BRCA1 "` is overwritten with its stripped form, so the original
column is changed from the caller's point of view. -/
theorem claim_C7_counterexample :
    getCol (annotate ⟨[("g", [some " BRCA1 "])]⟩ "g" [] []) "g"
      ≠ getCol ⟨[("g", [some " BRCA1 "])]⟩ "g" := by decide

/-- C7 amended: the processing step keeps every original column other than
the gene column unchanged, overwrites the gene column with the stripped
string forms of its values, and (for fresh annotation names) appends exactly
the six annotation columns. -/
theorem claim_C7 (df : DataFrame) (g : String) (said immune : List RefRecord)
    (hg : g ∉ annotNames) :
    (∀ p ∈ df.cols, p.1 ≠ g → p.1 ∉ annotNames → p ∈ (annotate df g said immune).cols)
    ∧ getCol (annotate df g said immune) g = some ((strippedVals df g).map some)
    ∧ (g ∈ colNames df → (∀ n ∈ annotNames, n ∉ colNames df) →
        colNames (annotate df g said immune) = colNames df ++ annotNames) := by
  refine ⟨?_, (annotate_getCol_eqs df g said immune hg).1, ?_⟩
  · intro p hp hpg hpn
    simp only [annotNames, List.mem_cons, List.not_mem_nil, or_false, not_or] at hpn
    obtain ⟨h1, h2, h3, h4, h5, h6⟩ := hpn
    simp only [annotate]
    exact mem_assignApplied_of_ne _ _ _ _
      (mem_assignApplied_of_ne _ _ _ _
        (mem_assignApplied_of_ne _ _ _ _
          (mem_assignApplied_of_ne _ _ _ _
            (mem_assignApplied_of_ne _ _ _ _
              (mem_assignApplied_of_ne _ _ _ _
                (mem_setCol_of_ne _ _ _ hp hpg) h1) h2) h3) h4) h5) h6
  · intro hgmem hdisj
    have hd1 := hdisj "SAID gene" (by decide)
    have hd2 := hdisj "SAID disease" (by decide)
    have hd3 := hdisj "SAID disease inheritance" (by decide)
    have hd4 := hdisj "Immune gene" (by decide)
    have hd5 := hdisj "Immune disease" (by decide)
    have hd6 := hdisj "Immune disease inheritance" (by decide)
    simp only [annotate]
    rw [colNames_assignApplied, colNames_assignApplied, colNames_assignApplied,
      colNames_assignApplied, colNames_assignApplied, colNames_assignApplied,
      colNames_setCol, if_pos hgmem]
    rw [if_neg hd1,
      if_neg (List.not_mem_append hd2 (by decide)),
      if_neg (List.not_mem_append (List.not_mem_append hd3 (by decide)) (by decide)),
      if_neg (List.not_mem_append
        (List.not_mem_append (List.not_mem_append hd4 (by decide)) (by decide)) (by decide)),
      if_neg (List.not_mem_append (List.not_mem_append
        (List.not_mem_append (List.not_mem_append hd5 (by decide)) (by decide)) (by decide))
        (by decide)),
      if_neg (List.not_mem_append (List.not_mem_append (List.not_mem_append
        (List.not_mem_append (List.not_mem_append hd6 (by decide)) (by decide)) (by decide))
        (by decide)) (by decide))]
    simp [annotNames]

/-- Witness for C7 at a concrete two-column table. -/
theorem claim_C7_witness :
    ("x", [some "1"]) ∈ (annotate ⟨[("x", [some "1"]), ("g", [some " A "])]⟩ "g" [] []).cols
    ∧ colNames (annotate ⟨[("x", [some "1"]), ("g", [some " A "])]⟩ "g" [] [])
        = colNames ⟨[("x", [some "1"]), ("g", [some " A "])]⟩ ++ annotNames :=
  ⟨(claim_C7 ⟨[("x", [some "1"]), ("g", [some " A "])]⟩ "g" [] [] (by decide)).1
      ("x", [some "1"]) (by decide) (by decide) (by decide),
   (claim_C7 ⟨[("x", [some "1"]), ("g", [some " A "])]⟩ "g" [] [] (by decide)).2.2
      (by decide) (by decide)⟩

/-- C8: when detection yields `None`, the caller tries `gene`, `ann.gene`,
`SYMBOL` in that priority order, and when none of them exists the request
fails with `NoGeneColumnFound` carrying the list of available columns. -/
theorem claim_C8 (df : DataFrame) (referenceSets : List (List String))
    (hdet : guess_gene_column df referenceSets = none) :
    ("gene" ∈ colNames df → select_gene_column df referenceSets = Except.ok "gene")
    ∧ ("gene" ∉ colNames df → "ann.gene" ∈ colNames df →
        select_gene_column df referenceSets = Except.ok "ann.gene")
    ∧ ("gene" ∉ colNames df → "ann.gene" ∉ colNames df → "SYMBOL" ∈ colNames df →
        select_gene_column df referenceSets = Except.ok "SYMBOL")
    ∧ ("gene" ∉ colNames df → "ann.gene" ∉ colNames df → "SYMBOL" ∉ colNames df →
        select_gene_column df referenceSets
          = Except.error (AnnotError.NoGeneColumnFound (colNames df))) := by
  have hch : choose_gene_column df referenceSets
      = (if df.cols.any (fun p => p.1 == "gene") then some "gene"
        else if df.cols.any (fun p => p.1 == "ann.gene") then some "ann.gene"
        else if df.cols.any (fun p => p.1 == "SYMBOL") then some "SYMBOL"
        else none) := by
    unfold choose_gene_column
    rw [hdet]
  refine ⟨fun h1 => ?_, fun h1 h2 => ?_, fun h1 h2 h3 => ?_, fun h1 h2 h3 => ?_⟩
  · unfold select_gene_column
    rw [hch, if_pos ((any_fst_beq df.cols "gene").mpr h1)]
  · unfold select_gene_column
    rw [hch, if_neg (fun hc => h1 ((any_fst_beq df.cols "gene").mp hc)),
      if_pos ((any_fst_beq df.cols "ann.gene").mpr h2)]
  · unfold select_gene_column
    rw [hch, if_neg (fun hc => h1 ((any_fst_beq df.cols "gene").mp hc)),
      if_neg (fun hc => h2 ((any_fst_beq df.cols "ann.gene").mp hc)),
      if_pos ((any_fst_beq df.cols "SYMBOL").mpr h3)]
  · unfold select_gene_column
    rw [hch, if_neg (fun hc => h1 ((any_fst_beq df.cols "gene").mp hc)),
      if_neg (fun hc => h2 ((any_fst_beq df.cols "ann.gene").mp hc)),
      if_neg (fun hc => h3 ((any_fst_beq df.cols "SYMBOL").mp hc))]

/-- Witness for C8: a numeric `gene` column is not detected but found by
name; a table with no candidate at all yields the error with its columns. -/
theorem claim_C8_witness :
    select_gene_column ⟨[("gene", [some "123"])]⟩ [] = Except.ok "gene"
    ∧ select_gene_column ⟨[("x", [some "1"])]⟩ []
        = Except.error (AnnotError.NoGeneColumnFound ["x"]) :=
  ⟨(claim_C8 ⟨[("gene", [some "123"])]⟩ [] (by decide)).1 (by decide),
   (claim_C8 ⟨[("x", [some "1"])]⟩ [] (by decide)).2.2.2 (by decide) (by decide) (by decide)⟩

end GeneLists
